import Mathlib

/-!
Verification of the Carnival VS Code extension's diagnostics engine
(`src/extension.ts`): a shallow embedding of the instruction catalog
`INSTRUCTIONS`, the `updateDiagnostics` validation pass (meta-key check,
register-range scan, per-line instruction check) and the completion
provider, together with theorems settling the specification's claims.

Documents are modelled as `List Char`; the JavaScript regular expressions
of the source are modelled as executable character-list predicates with
the same ASCII character classes (`\d`, `\w`, `\s`, `\S`, `\b`).
-/

namespace Carnival

/-- Severity levels of `vscode.DiagnosticSeverity` (the source uses
`Error` and `Information`). -/
inductive DiagnosticSeverity where
  | Error
  | Warning
  | Information
  | Hint
deriving DecidableEq, Repr

/-- A position `(line, character)` as in `vscode.Position`. -/
structure Pos where
  line : Nat
  char : Nat
deriving DecidableEq, Repr

/-- A range as in `vscode.Range`. -/
structure Rng where
  start : Pos
  stop : Pos
deriving DecidableEq, Repr

/-- Builds a range from four coordinates, as
`new vscode.Range(sl, sc, el, ec)` does. -/
def mkRange (sl sc el ec : Nat) : Rng :=
  ⟨⟨sl, sc⟩, ⟨el, ec⟩⟩

/-- A diagnostic as built by the source: a range, a message, a severity
and the optional `code` field (set only for missing-meta findings). -/
structure Diagnostic where
  range : Rng
  message : String
  severity : DiagnosticSeverity
  code : Option String
deriving DecidableEq, Repr

/-- The static instruction table `INSTRUCTIONS` of src/extension.ts:
mnemonic to ordered list of operand slots, each slot a list of acceptable
kind names, in source order. -/
def INSTRUCTIONS : List (String × List (List String)) :=
  [ ("MOV", [["Reg","Num"], ["Reg"]]),
    ("LOD", [["Num"], ["Reg"]]),
    ("STR", [["Reg","Num"], ["Num"]]),
    ("PSH", [["Reg","Num"]]),
    ("POP", [["Reg"]]),
    ("ADD", [["Reg","Num"], ["Reg","Num"], ["Reg"]]),
    ("SUB", [["Reg","Num"], ["Reg","Num"], ["Reg"]]),
    ("MOD", [["Reg","Num"], ["Reg","Num"], ["Reg"]]),
    ("XOR", [["Reg","Num"], ["Reg","Num"], ["Reg"]]),
    ("AND", [["Reg","Num"], ["Reg","Num"], ["Reg"]]),
    ("NOT", [["Reg","Num"], ["Reg"]]),
    ("OR",  [["Reg","Num"], ["Reg","Num"], ["Reg"]]),
    ("JMP", [["Num","Label"]]),
    ("CAL", [["Num","Label"]]),
    ("RET", []),
    ("BRZ", [["Reg","Num"], ["Num","Label"]]),
    ("BNZ", [["Reg","Num"], ["Num","Label"]]),
    ("IN",  [["Num"], ["Reg"]]),
    ("OUT", [["Num"], ["Reg","Num","String"]]),
    ("GIP", [["Reg"]]),
    ("HLT", []),
    ("BRG", [["Reg", "Num"], ["Reg", "Num"], ["Label", "Num"]]),
    ("BNG", [["Reg", "Num"], ["Reg", "Num"], ["Label", "Num"]]),
    ("BRL", [["Reg", "Num"], ["Reg", "Num"], ["Label", "Num"]]),
    ("BNL", [["Reg", "Num"], ["Reg", "Num"], ["Label", "Num"]]) ]

/-- JavaScript `\s` restricted to the ASCII whitespace characters that can
occur in the modelled documents. -/
def jsWhitespace (c : Char) : Bool :=
  c = ' ' || c = '\t' || c = '\n' || c = '\r' || c = '\x0b' || c = '\x0c'

/-- JavaScript `\d`: an ASCII decimal digit. -/
def jsDigit (c : Char) : Bool :=
  '0' ≤ c && c ≤ '9'

/-- JavaScript `\w` (no `u` flag): ASCII letter, digit or underscore. -/
def jsWordChar (c : Char) : Bool :=
  ('A' ≤ c && c ≤ 'Z') || ('a' ≤ c && c ≤ 'z') || jsDigit c || c = '_'

/-- Numeric value of a digit string, as `parseInt` computes it on a string
of decimal digits. -/
def digitsVal (l : List Char) : Nat :=
  l.foldl (fun acc c => 10 * acc + (c.toNat - '0'.toNat)) 0

/-- The test `/^r\d{1,2}$/i.test(actual)` used by the `Reg` kind check:
`r` or `R` followed by one or two decimal digits and nothing else. -/
def regTokenTest (s : List Char) : Bool :=
  match s with
  | [] => false
  | c :: ds =>
    (c = 'r' || c = 'R') && ds ≠ [] && ds.length ≤ 2 && ds.all jsDigit

/-- The test `/^\d+$/.test(actual)` used by the `Num` kind check. -/
def numTokenTest (s : List Char) : Bool :=
  s ≠ [] && s.all jsDigit

/-- First character of the Label pattern: `.`, an ASCII letter, or `_`. -/
def labelStartChar (c : Char) : Bool :=
  c = '.' || ('A' ≤ c && c ≤ 'Z') || ('a' ≤ c && c ≤ 'z') || c = '_'

/-- The test `/^(\.|[A-Za-z_])[\w.]*$/.test(actual)` used by the `Label`
kind check. -/
def labelTokenTest (s : List Char) : Bool :=
  match s with
  | [] => false
  | c :: rest =>
    labelStartChar c && rest.all (fun d => jsWordChar d || d = '.')

/-- JavaScript `.` without the `s` flag: any character except a line
terminator. -/
def jsDot (c : Char) : Bool :=
  c ≠ '\n' && c ≠ '\r' && c ≠ '\u2028' && c ≠ '\u2029'

/-- The test `/^'.*'$/.test(actual)` used by the `String` kind check: a
single quote, any non-line-terminator characters, a closing single
quote. -/
def stringTokenTest (s : List Char) : Bool :=
  match s with
  | '\'' :: (c :: rest) => (c :: rest).getLast? = some '\'' &&
      ((c :: rest).dropLast).all jsDot
  | _ => false

/-- The inner loop of the operand type check: starting from
`valid = false`, each acceptable kind of the slot may set `valid`. -/
def validToken (expectedKinds : List String) (actual : List Char) : Bool :=
  expectedKinds.any fun kind =>
    (kind = "Reg" && regTokenTest actual) ||
    (kind = "Num" && numTokenTest actual) ||
    (kind = "Label" && labelTokenTest actual) ||
    (kind = "String" && stringTokenTest actual)

/-- `text.split(/\r?\n/)`: lines separated by `\n` or `\r\n` (a lone `\r`
is not a separator). -/
def splitLines : List Char → List (List Char)
  | [] => [[]]
  | '\r' :: '\n' :: rest => [] :: splitLines rest
  | '\n' :: rest => [] :: splitLines rest
  | c :: rest =>
    match splitLines rest with
    | [] => [[c]]
    | l :: ls => (c :: l) :: ls

/-- JavaScript `String.prototype.trim`: strip whitespace from both ends. -/
def trimLine (l : List Char) : List Char :=
  ((l.dropWhile jsWhitespace).reverse.dropWhile jsWhitespace).reverse

/-- Splits a character list at its first single quote: `some (before,
after)` when a quote exists, `none` otherwise. Models the `[^']*'` part of
the tokenizer's quoted alternative. -/
def splitAtQuote : List Char → Option (List Char × List Char)
  | [] => none
  | c :: rest =>
    if c = '\'' then some ([], rest)
    else
      match splitAtQuote rest with
      | some (ins, aft) => some (c :: ins, aft)
      | none => none

/-- Fuel-indexed worker for the line tokenizer: every recursive call
consumes at least one character, so any fuel above the input length is
enough. -/
def tokenizeLineGo : Nat → List Char → List (List Char)
  | 0, _ => []
  | _ + 1, [] => []
  | fuel + 1, c :: rest =>
    if jsWhitespace c then tokenizeLineGo fuel rest
    else if c = '\'' then
      match splitAtQuote rest with
      | some (ins, aft) => ('\'' :: (ins ++ ['\''])) :: tokenizeLineGo fuel aft
      | none =>
        (c :: rest.takeWhile (fun d => !jsWhitespace d)) ::
          tokenizeLineGo fuel (rest.dropWhile (fun d => !jsWhitespace d))
    else
      (c :: rest.takeWhile (fun d => !jsWhitespace d)) ::
        tokenizeLineGo fuel (rest.dropWhile (fun d => !jsWhitespace d))

/-- The line tokenizer `line.match(/'[^']*'|\S+/g)`: at each scan position
a quoted span `'...'` is preferred when a closing quote exists; otherwise
a maximal run of non-whitespace characters is taken; whitespace is
skipped. -/
def tokenizeLine (l : List Char) : List (List Char) :=
  tokenizeLineGo (l.length + 1) l

/-- `String.prototype.toUpperCase` on the ASCII mnemonics involved. -/
def toUpperList (l : List Char) : List Char :=
  l.map Char.toUpper

/-- The required meta keys, in source order. -/
def requiredKeys : List String :=
  ["meta.name", "meta.version", "meta.author"]

/-- Whether `pre` is an initial segment of `l`. -/
def matchesAt : List Char → List Char → Bool
  | [], _ => true
  | _ :: _, [] => false
  | a :: as, b :: bs => a = b && matchesAt as bs

/-- JavaScript `text.includes(key)`: substring containment. -/
def includesList (hay needle : List Char) : Bool :=
  if matchesAt needle hay then true
  else
    match hay with
    | [] => false
    | _ :: t => includesList t needle

/-- Check A of `updateDiagnostics`: one `Information` finding at range
(0,0,0,0), with code `missing_<key>`, per required meta key that does not
occur in the text as a substring. -/
def checkMeta (text : List Char) : List Diagnostic :=
  requiredKeys.filterMap fun key =>
    if includesList text key.data then none
    else some ⟨mkRange 0 0 0 0, "Missing key: " ++ key,
               DiagnosticSeverity.Information, some ("missing_" ++ key)⟩

/-- The maximal runs of word characters of a text, with their start
offsets; the `\b...\b` matches of Check B's scan are exactly the runs of
the register shape. `go` carries the current offset and the run being
accumulated (start offset, reversed characters). -/
def wordRunsGo : List Char → Nat → Option (Nat × List Char) →
    List (Nat × List Char)
  | [], _, none => []
  | [], _, some (s, acc) => [(s, acc.reverse)]
  | c :: rest, i, none =>
    if jsWordChar c then wordRunsGo rest (i + 1) (some (i, [c]))
    else wordRunsGo rest (i + 1) none
  | c :: rest, i, some (s, acc) =>
    if jsWordChar c then wordRunsGo rest (i + 1) (some (s, c :: acc))
    else (s, acc.reverse) :: wordRunsGo rest (i + 1) none

def wordRuns (text : List Char) : List (Nat × List Char) :=
  wordRunsGo text 0 none

/-- Check B of `updateDiagnostics` at the character-offset level: the loop
`while ((match = registerRegex.exec(text)) !== null)` over
`/\b(r\d{1,2})\b/gi`, emitting `(startOffset, endOffset, message)` for
each whole-word register-shaped token whose value is out of range. -/
def checkRegistersRaw (text : List Char) : List (Nat × Nat × String) :=
  (wordRuns text).filterMap fun p =>
    if regTokenTest p.2 then
      if digitsVal (p.2.drop 1) < 0 || digitsVal (p.2.drop 1) > 15 then
        some (p.1, p.1 + p.2.length, "Invalid register: " ++ p.2.asString)
      else none
    else none

/-- `doc.positionAt(off)`: the `(line, character)` of a character offset,
counting `\n` and `\r\n` (and a lone `\r`) as line breaks. -/
def positionAt (text : List Char) (off : Nat) : Pos :=
  go text off 0 0
where
  go : List Char → Nat → Nat → Nat → Pos
    | _, 0, l, c => ⟨l, c⟩
    | [], _, l, c => ⟨l, c⟩
    | '\r' :: '\n' :: rest, Nat.succ n, l, c =>
      go ('\n' :: rest) n l (c + 1)
    | '\n' :: rest, Nat.succ n, l, _ => go rest n (l + 1) 0
    | '\r' :: rest, Nat.succ n, l, _ => go rest n (l + 1) 0
    | _ :: rest, Nat.succ n, l, c => go rest n l (c + 1)

/-- Check B as a list of diagnostics, converting offsets to positions with
`doc.positionAt` as the source does. -/
def checkRegisters (text : List Char) : List Diagnostic :=
  (checkRegistersRaw text).map fun f =>
    ⟨⟨positionAt text f.1, positionAt text f.2.1⟩, f.2.2,
     DiagnosticSeverity.Error, none⟩

/-- `firstPart.startsWith(ch)` for a single-character prefix. -/
def startsWithChar : List Char → Char → Bool
  | [], _ => false
  | c :: _, d => c = d

/-- One slot of the operand type check: `none` when the token matches one
of the slot's acceptable kinds, otherwise the `Error` diagnostic the
source pushes for that slot, spanning the whole trimmed line. -/
def slotFinding (lineNum : Nat) (line : List Char) (instruction : String)
    (expectedKinds : List String) (actual : List Char) : Option Diagnostic :=
  if validToken expectedKinds actual then none
  else some ⟨mkRange lineNum 0 lineNum line.length,
    "Invalid argument '" ++ actual.asString ++ "' for " ++ instruction ++
      ". Expected: " ++ String.intercalate " or " expectedKinds,
    DiagnosticSeverity.Error, none⟩

/-- Check C for one line: trim, tokenize, resolve the uppercased mnemonic
in the catalog, then either the unknown-instruction handling, the arity
check, or the per-slot operand type checks. -/
def checkLine (lineNum : Nat) (rawLine : List Char) : List Diagnostic :=
  let line := trimLine rawLine
  if line = [] then []
  else
    match tokenizeLine line with
    | [] => []
    | firstPart :: args =>
      let instruction := (toUpperList firstPart).asString
      match INSTRUCTIONS.lookup instruction with
      | none =>
        if startsWithChar firstPart '#' then []
        else if (requiredKeys.map String.data).contains firstPart then []
        else if startsWithChar firstPart '.' then []
        else [⟨mkRange lineNum 0 lineNum firstPart.length,
              "Invalid instruction: " ++ instruction,
              DiagnosticSeverity.Error, none⟩]
      | some signature =>
        if args.length ≠ signature.length then
          [⟨mkRange lineNum 0 lineNum line.length,
            "Instruction " ++ instruction ++ " expects " ++
              toString signature.length ++ " argument(s), got " ++
              toString args.length,
            DiagnosticSeverity.Error, none⟩]
        else
          (signature.zip args).filterMap fun p =>
            slotFinding lineNum line instruction p.1 p.2

/-- Check C over the whole document: the line loop of
`updateDiagnostics`. -/
def lineDiagnostics (text : List Char) : List Diagnostic :=
  ((splitLines text).enum).flatMap fun p => checkLine p.1 p.2

/-- The whole `updateDiagnostics` validation pass: meta-key findings, then
register-range findings, then per-line findings, in the push order of the
source. -/
def updateDiagnostics (text : List Char) : List Diagnostic :=
  checkMeta text ++ checkRegisters text ++ lineDiagnostics text

/-- The kinds of `vscode.CompletionItemKind` used here. -/
inductive CompletionItemKind where
  | Keyword
  | Text
deriving DecidableEq, Repr

/-- A completion item as built by `CarnivalCompletionProvider`. -/
structure CompletionItem where
  label : String
  kind : CompletionItemKind
  insertText : String
  detail : String
deriving DecidableEq, Repr

/-- `CarnivalCompletionProvider.provideCompletionItems`: one keyword item
per catalog mnemonic, lower-cased, ignoring the document and position. -/
def provideCompletionItems (_document : List Char) (_position : Pos) :
    List CompletionItem :=
  ((INSTRUCTIONS.map Prod.fst).map (fun inst => inst.toLower)).map fun inst =>
    { label := inst, kind := CompletionItemKind.Keyword,
      insertText := inst, detail := "Carnival instruction" }

/-! ## Claim theorems -/

/-- C1, counterexample: validating the document `MOV r1 5` does not
produce 0 findings — MOV's second slot accepts only `Reg` and `5` is not
register-shaped, so a finding is emitted. -/
theorem mov_r1_5_not_clean : updateDiagnostics ("MOV r1 5".data) ≠ [] := by
  decide

/-- C1 (corrected): validating the document consisting of the line
`MOV r1 5` produces 4 findings: the 3 missing-meta Info findings and one
Error naming operand `5`, whose slot accepts only Register. -/
theorem mov_r1_5_diagnostics :
    updateDiagnostics ("MOV r1 5".data) =
      [⟨mkRange 0 0 0 0, "Missing key: meta.name",
        DiagnosticSeverity.Information, some "missing_meta.name"⟩,
       ⟨mkRange 0 0 0 0, "Missing key: meta.version",
        DiagnosticSeverity.Information, some "missing_meta.version"⟩,
       ⟨mkRange 0 0 0 0, "Missing key: meta.author",
        DiagnosticSeverity.Information, some "missing_meta.author"⟩,
       ⟨mkRange 0 0 0 8, "Invalid argument '5' for MOV. Expected: Reg",
        DiagnosticSeverity.Error, none⟩] := by
  rfl

/-- C2, counterexample: the instruction catalog does not have 23
entries. -/
theorem catalog_size_ne_23 : INSTRUCTIONS.length ≠ 23 := by
  decide

/-- C2 (corrected): the instruction Catalog contains exactly 25 mnemonic
entries. -/
theorem catalog_has_25_entries : INSTRUCTIONS.length = 25 := by
  rfl

/-- C3: the operand type check's register test is purely lexical — any
token of the register shape placed in a slot whose kind-set includes
`Reg` produces no operand-type finding for that slot, with no constraint
on the numeric suffix (`r99` included). -/
theorem regShaped_slot_no_finding (lineNum : Nat) (line : List Char)
    (instruction : String) (expectedKinds : List String) (tok : List Char)
    (hmem : "Reg" ∈ expectedKinds) (hshape : regTokenTest tok = true) :
    slotFinding lineNum line instruction expectedKinds tok = none := by
  have hv : validToken expectedKinds tok = true := by
    unfold validToken
    rw [List.any_eq_true]
    exact ⟨"Reg", hmem, by simp [hshape]⟩
  simp [slotFinding, hv]

/-- C3 witness: `r99` is out of the register range yet produces no
operand-type finding in MOV's first slot. -/
theorem regShaped_slot_no_finding_witness :
    15 < digitsVal ("r99".data.drop 1) ∧
    slotFinding 0 ("MOV r99 5".data) "MOV" ["Reg"] ("r99".data) = none :=
  ⟨by decide,
   regShaped_slot_no_finding 0 ("MOV r99 5".data) "MOV" ["Reg"]
     ("r99".data) (by decide) (by decide)⟩

/-- C10: every token matching the validator's Register pattern also
matches its Label pattern, so a register-shaped token in any slot whose
kind-set includes `Label` produces no operand-type finding. -/
theorem regShape_matches_label (tok : List Char)
    (hshape : regTokenTest tok = true) :
    labelTokenTest tok = true ∧
    ∀ (lineNum : Nat) (line : List Char) (instruction : String)
      (expectedKinds : List String), "Label" ∈ expectedKinds →
      slotFinding lineNum line instruction expectedKinds tok = none := by
  have hlab : labelTokenTest tok = true := by
    cases tok with
    | nil => simp [regTokenTest] at hshape
    | cons c ds =>
      simp only [regTokenTest, Bool.and_eq_true, Bool.or_eq_true,
        decide_eq_true_eq, List.all_eq_true] at hshape
      obtain ⟨⟨⟨hc, _⟩, _⟩, hall⟩ := hshape
      simp only [labelTokenTest, Bool.and_eq_true, List.all_eq_true]
      constructor
      · rcases hc with h | h <;> rw [h] <;> decide
      · intro x hx
        have hd := hall x hx
        simp [jsWordChar, hd]
  refine ⟨hlab, fun lineNum line instruction expectedKinds hmem => ?_⟩
  have hv : validToken expectedKinds tok = true := by
    unfold validToken
    rw [List.any_eq_true]
    exact ⟨"Label", hmem, by simp [hlab]⟩
  simp [slotFinding, hv]

/-- C10 witness: `r5` matches the Register pattern, matches the Label
pattern, and as the sole operand of `JMP` (slot kinds `Num`/`Label`)
produces no operand-type finding. -/
theorem regShape_matches_label_witness :
    regTokenTest ("r5".data) = true ∧
    labelTokenTest ("r5".data) = true ∧
    slotFinding 0 ("JMP r5".data) "JMP" ["Num", "Label"] ("r5".data) =
      none := by
  refine ⟨by decide, ?_, ?_⟩
  · exact (regShape_matches_label ("r5".data) (by decide)).1
  · exact (regShape_matches_label ("r5".data) (by decide)).2 0
      ("JMP r5".data) "JMP" ["Num", "Label"] (by decide)

/-- C4: on an arity mismatch for a recognized mnemonic, Check C emits for
that line exactly one Error finding, spanning the whole trimmed line and
stating expected versus actual operand count; no operand-type finding is
emitted, so a line never receives both kinds. -/
theorem arity_mismatch_single_error (lineNum : Nat)
    (rawLine firstPart : List Char) (args : List (List Char))
    (signature : List (List String))
    (hp : tokenizeLine (trimLine rawLine) = firstPart :: args)
    (hs : INSTRUCTIONS.lookup (toUpperList firstPart).asString =
      some signature)
    (hne : args.length ≠ signature.length) :
    checkLine lineNum rawLine =
      [⟨mkRange lineNum 0 lineNum (trimLine rawLine).length,
        "Instruction " ++ (toUpperList firstPart).asString ++ " expects " ++
          toString signature.length ++ " argument(s), got " ++
          toString args.length, DiagnosticSeverity.Error, none⟩] := by
  have hnil : ¬ trimLine rawLine = [] := by
    intro h0
    rw [h0] at hp
    simp [tokenizeLine, tokenizeLineGo] at hp
  simp only [checkLine, hp, hs, if_neg hnil, if_pos hne]

/-- C4 witness: the line `MOV 5` yields exactly one Error reporting that
MOV expects 2 argument(s) but got 1. -/
theorem arity_mismatch_single_error_witness :
    checkLine 0 ("MOV 5".data) =
      [⟨mkRange 0 0 0 5, "Instruction MOV expects 2 argument(s), got 1",
        DiagnosticSeverity.Error, none⟩] := by
  have h := arity_mismatch_single_error 0 ("MOV 5".data) ("MOV".data)
    ["5".data] [["Reg", "Num"], ["Reg"]] (by decide) (by decide) (by decide)
  rw [h]
  decide

/-- C5: when the mnemonic is recognized and the arity matches, Check C's
findings for the line are exactly one finding per operand slot whose
token matches none of the slot's acceptable kinds — each slot judged
independently via `slotFinding`, with no short-circuit across slots — and
every such finding is an Error naming the offending operand and the
slot's expected kind(s). -/
theorem type_checks_per_slot (lineNum : Nat)
    (rawLine firstPart : List Char) (args : List (List Char))
    (signature : List (List String))
    (hp : tokenizeLine (trimLine rawLine) = firstPart :: args)
    (hs : INSTRUCTIONS.lookup (toUpperList firstPart).asString =
      some signature)
    (heq : args.length = signature.length) :
    checkLine lineNum rawLine =
      (signature.zip args).filterMap (fun p =>
        slotFinding lineNum (trimLine rawLine)
          (toUpperList firstPart).asString p.1 p.2) ∧
    ∀ (kinds : List String) (tok : List Char),
      validToken kinds tok = false →
      slotFinding lineNum (trimLine rawLine)
          (toUpperList firstPart).asString kinds tok =
        some ⟨mkRange lineNum 0 lineNum (trimLine rawLine).length,
          "Invalid argument '" ++ tok.asString ++ "' for " ++
            (toUpperList firstPart).asString ++ ". Expected: " ++
            String.intercalate " or " kinds,
          DiagnosticSeverity.Error, none⟩ := by
  constructor
  · have hnil : ¬ trimLine rawLine = [] := by
      intro h0
      rw [h0] at hp
      simp [tokenizeLine, tokenizeLineGo] at hp
    have hnne : ¬ args.length ≠ signature.length := fun h => h heq
    simp only [checkLine, hp, hs, if_neg hnil, if_neg hnne]
  · intro kinds tok hv
    simp [slotFinding, hv]

/-- C5 witness: the line `ADD r1 r2 99` yields exactly one Error naming
operand `99` as invalid for the third slot. -/
theorem type_checks_per_slot_witness :
    checkLine 0 ("ADD r1 r2 99".data) =
      [⟨mkRange 0 0 0 12, "Invalid argument '99' for ADD. Expected: Reg",
        DiagnosticSeverity.Error, none⟩] := by
  have h := (type_checks_per_slot 0 ("ADD r1 r2 99".data) ("ADD".data)
    ["r1".data, "r2".data, "99".data]
    [["Reg", "Num"], ["Reg", "Num"], ["Reg"]]
    (by decide) (by decide) (by decide)).1
  rw [h]
  decide

/-- C8: a non-blank line whose uppercased first token is not a catalog
mnemonic is skipped silently exactly when the first token starts with
`#`, is one of the meta-key names, or starts with `.`; otherwise Check C
emits exactly one Error spanning the first token's range and naming the
unrecognized instruction, and nothing else for that line. -/
theorem unknown_instruction_handling (lineNum : Nat)
    (rawLine firstPart : List Char) (args : List (List Char))
    (hp : tokenizeLine (trimLine rawLine) = firstPart :: args)
    (hs : INSTRUCTIONS.lookup (toUpperList firstPart).asString = none) :
    checkLine lineNum rawLine =
      if startsWithChar firstPart '#' ||
         (requiredKeys.map String.data).contains firstPart ||
         startsWithChar firstPart '.' then []
      else
        [⟨mkRange lineNum 0 lineNum firstPart.length,
          "Invalid instruction: " ++ (toUpperList firstPart).asString,
          DiagnosticSeverity.Error, none⟩] := by
  have hnil : ¬ trimLine rawLine = [] := by
    intro h0
    rw [h0] at hp
    simp [tokenizeLine, tokenizeLineGo] at hp
  simp only [checkLine, hp, hs, if_neg hnil]
  by_cases h1 : startsWithChar firstPart '#' = true
  · simp [h1]
  · by_cases h2 : ∃ a ∈ requiredKeys, a.data = firstPart
    · simp [h1, h2]
    · by_cases h3 : startsWithChar firstPart '.' = true
      · simp [h1, h2, h3]
      · simp [h1, h2, h3]

/-- C8 witness: `.loop` and `# comment` yield 0 findings; `FOO r1` yields
exactly one Error naming the unrecognized instruction `FOO`. -/
theorem unknown_instruction_handling_witness :
    checkLine 0 (".loop".data) = [] ∧
    checkLine 1 ("# comment".data) = [] ∧
    checkLine 2 ("FOO r1".data) =
      [⟨mkRange 2 0 2 3, "Invalid instruction: FOO",
        DiagnosticSeverity.Error, none⟩] := by
  refine ⟨?_, ?_, ?_⟩
  · have h := unknown_instruction_handling 0 (".loop".data) (".loop".data)
      [] (by decide) (by decide)
    rw [h]
    decide
  · have h := unknown_instruction_handling 1 ("# comment".data) ("#".data)
      ["comment".data] (by decide) (by decide)
    rw [h]
    decide
  · have h := unknown_instruction_handling 2 ("FOO r1".data) ("FOO".data)
      ["r1".data] (by decide) (by decide)
    rw [h]
    decide

/-- C7: Check A is a pure substring test. A document in which none of the
three meta keys occurs gets exactly 3 Info findings, in the order name,
version, author, each at position (0,0) with the stable code
`missing_<key>`; a document containing all three substrings anywhere gets
no meta finding. -/
theorem meta_check (text : List Char) :
    ((∀ key ∈ requiredKeys, includesList text key.data = false) →
      checkMeta text =
        [⟨mkRange 0 0 0 0, "Missing key: meta.name",
          DiagnosticSeverity.Information, some "missing_meta.name"⟩,
         ⟨mkRange 0 0 0 0, "Missing key: meta.version",
          DiagnosticSeverity.Information, some "missing_meta.version"⟩,
         ⟨mkRange 0 0 0 0, "Missing key: meta.author",
          DiagnosticSeverity.Information, some "missing_meta.author"⟩]) ∧
    ((∀ key ∈ requiredKeys, includesList text key.data = true) →
      checkMeta text = []) := by
  constructor
  · intro h
    have h1 := h "meta.name" (by decide)
    have h2 := h "meta.version" (by decide)
    have h3 := h "meta.author" (by decide)
    simp [checkMeta, requiredKeys, h1, h2, h3]
  · intro h
    have h1 := h "meta.name" (by decide)
    have h2 := h "meta.version" (by decide)
    have h3 := h "meta.author" (by decide)
    simp [checkMeta, requiredKeys, h1, h2, h3]

/-- C7 witness: the empty document is missing all three keys and gets the
3 Info findings; a document containing all three substrings gets none. -/
theorem meta_check_witness :
    checkMeta [] =
      [⟨mkRange 0 0 0 0, "Missing key: meta.name",
        DiagnosticSeverity.Information, some "missing_meta.name"⟩,
       ⟨mkRange 0 0 0 0, "Missing key: meta.version",
        DiagnosticSeverity.Information, some "missing_meta.version"⟩,
       ⟨mkRange 0 0 0 0, "Missing key: meta.author",
        DiagnosticSeverity.Information, some "missing_meta.author"⟩] ∧
    checkMeta ("# meta.name meta.version meta.author".data) = [] :=
  ⟨(meta_check []).1 (by decide),
   (meta_check ("# meta.name meta.version meta.author".data)).2 (by decide)⟩

/-- C9: a completion request returns, for every document and cursor
position, the same list — one keyword item per catalog mnemonic,
lower-cased, with detail "Carnival instruction" — and its length is the
catalog's entry count. -/
theorem completions_constant (document : List Char) (position : Pos) :
    provideCompletionItems document position =
      (INSTRUCTIONS.map Prod.fst).map (fun inst =>
        ⟨inst.toLower, CompletionItemKind.Keyword, inst.toLower,
         "Carnival instruction"⟩) ∧
    (provideCompletionItems document position).length =
      INSTRUCTIONS.length :=
  ⟨rfl, rfl⟩

/-- C6: a triple is a Check-B finding exactly when it arises from a
whole-word run of the document that is register-shaped with numeric value
above 15; the finding spans exactly that token's character range and no
in-range register token contributes. -/
theorem checkB_characterization (text : List Char) (s e : Nat)
    (msg : String) :
    (s, e, msg) ∈ checkRegistersRaw text ↔
      ∃ run : List Char, (s, run) ∈ wordRuns text ∧
        regTokenTest run = true ∧ 15 < digitsVal (run.drop 1) ∧
        e = s + run.length ∧
        msg = "Invalid register: " ++ run.asString := by
  unfold checkRegistersRaw
  rw [List.mem_filterMap]
  constructor
  · rintro ⟨⟨off, run⟩, hmem, hf⟩
    dsimp only at hf
    by_cases hr : regTokenTest run = true
    case neg =>
      rw [if_neg hr] at hf
      exact absurd hf (by simp)
    case pos =>
      rw [if_pos hr] at hf
      by_cases hv : 15 < digitsVal (run.drop 1)
      case neg =>
        have hcond : ¬ ((digitsVal (run.drop 1) < 0 ||
            digitsVal (run.drop 1) > 15) = true) := by
          simp only [Bool.or_eq_true, decide_eq_true_eq]
          rintro (h | h) <;> omega
        rw [if_neg hcond] at hf
        exact absurd hf (by simp)
      case pos =>
        have hcond : (digitsVal (run.drop 1) < 0 ||
            digitsVal (run.drop 1) > 15) = true := by
          simp only [Bool.or_eq_true, decide_eq_true_eq]
          omega
        rw [if_pos hcond] at hf
        obtain ⟨h1, h2, h3⟩ :
            off = s ∧ off + run.length = e ∧
              "Invalid register: " ++ run.asString = msg := by
          simpa [Prod.ext_iff] using Option.some.inj hf
        subst h1
        exact ⟨run, hmem, hr, hv, h2.symm, h3.symm⟩
  · rintro ⟨run, hmem, hr, hv, he, hm⟩
    refine ⟨(s, run), hmem, ?_⟩
    dsimp only
    have hcond : (digitsVal (run.drop 1) < 0 ||
        digitsVal (run.drop 1) > 15) = true := by
      simp only [Bool.or_eq_true, decide_eq_true_eq]
      omega
    rw [if_pos hr, if_pos hcond, he, hm]

end Carnival
